import Mathlib

/-!
Verification of the student/notes persistence layer (`backend/database.py`).

The store is a SQLite database with two tables, `students` and `notes`.
We embed a database state as two lists of rows together with the
AUTOINCREMENT counters (SQLite never reuses an `id` after deletion), and
each repository operation as a pure function on that state.  Wall-clock
timestamps (`CURRENT_TIMESTAMP`) are modelled by an explicit `Nat`
parameter passed to every mutating operation; timestamp columns are
`Option Nat` since the schema declares them without `NOT NULL`.
`REAL` scores are modelled as `ℚ`, `INTEGER` columns as `ℤ`.
-/

namespace StudentsApp

/-- A row of the `students` table (schema in `init_database`). -/
structure StudentRow where
  id : Nat
  student_id : String
  name : String
  gender : String
  age : Int
  major : String
  score : ℚ
  created_at : Option Nat
  updated_at : Option Nat
deriving Repr, DecidableEq

/-- A row of the `notes` table.  `title` is `NOT NULL`; `content` and
`color` are nullable; `is_pinned` is an SQLite `INTEGER` (any integer can
be stored, nothing restricts it to 0/1). -/
structure NoteRow where
  id : Nat
  title : String
  content : Option String
  color : Option String
  is_pinned : Int
  created_at : Option Nat
  updated_at : Option Nat
deriving Repr, DecidableEq

/-- The whole SQLite file: both tables, their AUTOINCREMENT counters, and
whether each `CREATE TABLE IF NOT EXISTS` has run. -/
structure DB where
  studentsTableExists : Bool
  notesTableExists : Bool
  students : List StudentRow
  nextStudentId : Nat
  notes : List NoteRow
  nextNoteId : Nat
deriving Repr, DecidableEq

/-- A store whose database file is fresh: no tables, no rows;
AUTOINCREMENT counters start at 1. -/
def emptyDB : DB :=
  { studentsTableExists := false
    notesTableExists := false
    students := []
    nextStudentId := 1
    notes := []
    nextNoteId := 1 }

/-- The caller-supplied fields of a student (`data` dict in
`StudentDB.create`/`update`; all six keys are accessed with `data[...]`,
hence required). -/
structure StudentData where
  student_id : String
  name : String
  gender : String
  age : Int
  major : String
  score : ℚ
deriving Repr, DecidableEq

/-- The caller-supplied fields of a note (`data` dict in
`NoteDB.create`/`update`; every key is accessed with `data.get(...)`,
hence optional — `none` models an absent key). -/
structure NoteData where
  title : Option String := none
  content : Option String := none
  color : Option String := none
  is_pinned : Option Int := none
deriving Repr, DecidableEq

/-! ### SQLite `LIKE`

`search` filters with `title LIKE '%kw%' OR content LIKE '%kw%'`.
SQLite's default `LIKE` folds ASCII letters to lower case (and only
ASCII), `'%'` matches any sequence of characters and `'_'` any single
character.  `Char.toLower` in Lean is exactly the ASCII-only fold. -/

/-- The helper `anySuffix f s` is true when `f` accepts some suffix of `s`
(including `s` itself and `[]`) — how a `%` consumes an arbitrary run
of characters. -/
def anySuffix (f : List Char → Bool) : List Char → Bool
  | [] => f []
  | c :: s => f (c :: s) || anySuffix f s

/-- SQLite's `LIKE` matcher: `likeMatch pat s` decides whether pattern
`pat` matches the whole string `s`, with `%`/`_` wildcards and
ASCII-case-insensitive comparison of plain characters (SQLite folds
only `A`–`Z`, exactly `Char.toLower`). -/
def likeMatch : List Char → List Char → Bool
  | [], s => s.isEmpty
  | p :: ps, s =>
    if p == '%' then
      anySuffix (likeMatch ps) s
    else
      match s with
      | [] => false
      | c :: s2 => (p == '_' || Char.toLower p == Char.toLower c) && likeMatch ps s2

/-- A `NULL`-aware `LIKE` on a nullable column: `NULL LIKE pat` is not
true, so a `NULL` column never satisfies the `WHERE` clause. -/
def likeOpt (pat : List Char) : Option String → Bool
  | some s => likeMatch pat s.toList
  | none => false

/-! ### Ordering

`ORDER BY id DESC` for students, `ORDER BY is_pinned DESC, id DESC` for
notes.  Both keys are total on the rows SQLite can hold (ids are a
primary key), so the sorted result is the unique sorted permutation; we
realise it with `List.insertionSort`. -/

/-- Row `a` may precede `b` under `ORDER BY id DESC`. -/
def studentOrd (a b : StudentRow) : Prop := b.id ≤ a.id

instance : DecidableRel studentOrd := fun a b => by
  unfold studentOrd; infer_instance

instance : IsTotal StudentRow studentOrd :=
  ⟨fun a b => (Nat.le_total b.id a.id).imp id id⟩

instance : IsTrans StudentRow studentOrd :=
  ⟨fun _ _ _ h1 h2 => Nat.le_trans h2 h1⟩

/-- Row `a` may precede `b` under `ORDER BY is_pinned DESC, id DESC`. -/
def noteOrd (a b : NoteRow) : Prop :=
  b.is_pinned < a.is_pinned ∨ (a.is_pinned = b.is_pinned ∧ b.id ≤ a.id)

instance : DecidableRel noteOrd := fun a b => by
  unfold noteOrd; infer_instance

instance : IsTotal NoteRow noteOrd := by
  constructor
  intro a b
  unfold noteOrd
  rcases lt_trichotomy a.is_pinned b.is_pinned with h | h | h
  · exact Or.inr (Or.inl h)
  · rcases Nat.le_total b.id a.id with h2 | h2
    · exact Or.inl (Or.inr ⟨h, h2⟩)
    · exact Or.inr (Or.inr ⟨h.symm, h2⟩)
  · exact Or.inl (Or.inl h)

instance : IsTrans NoteRow noteOrd := by
  constructor
  intro a b c h1 h2
  unfold noteOrd at *
  rcases h1 with h1 | ⟨h1, h1'⟩ <;> rcases h2 with h2 | ⟨h2, h2'⟩
  · exact Or.inl (lt_trans h2 h1)
  · exact Or.inl (h2 ▸ h1)
  · exact Or.inl (h1 ▸ h2)
  · exact Or.inr ⟨h1.trans h2, Nat.le_trans h2' h1'⟩

/-- The result order of `SELECT * FROM notes ... ORDER BY is_pinned
DESC, id DESC`. -/
def sortNotes (l : List NoteRow) : List NoteRow :=
  List.insertionSort noteOrd l

/-! ### Student repository (`class StudentDB`) -/

namespace StudentDB

/-- Runs `SELECT * FROM students ORDER BY id DESC`. -/
def get_all (db : DB) : List StudentRow :=
  List.insertionSort studentOrd db.students

/-- Runs `SELECT * FROM students WHERE id = ?` followed by `fetchone`. -/
def get_by_id (i : Nat) (db : DB) : Option StudentRow :=
  db.students.find? (fun r => r.id == i)

/-- Runs `INSERT INTO students (student_id, name, gender, age, major, score)
VALUES (...)`, then `get_by_id(cursor.lastrowid)`.  The system assigns
`id` (AUTOINCREMENT) and both timestamps (column defaults). -/
def create (t : Nat) (data : StudentData) (db : DB) : Option StudentRow × DB :=
  let row : StudentRow :=
    { id := db.nextStudentId
      student_id := data.student_id
      name := data.name
      gender := data.gender
      age := data.age
      major := data.major
      score := data.score
      created_at := some t
      updated_at := some t }
  let db2 : DB :=
    { db with students := db.students ++ [row], nextStudentId := db.nextStudentId + 1 }
  (get_by_id row.id db2, db2)

/-- Runs `UPDATE students SET student_id=?, name=?, gender=?, age=?, major=?,
score=?, updated_at=CURRENT_TIMESTAMP WHERE id=?`; returns the re-read
row when `cursor.rowcount > 0`, else `None`. -/
def update (t : Nat) (i : Nat) (data : StudentData) (db : DB) :
    Option StudentRow × DB :=
  if db.students.any (fun r => r.id == i) then
    let db2 : DB :=
      { db with
        students := db.students.map (fun r =>
          if r.id == i then
            { r with
              student_id := data.student_id
              name := data.name
              gender := data.gender
              age := data.age
              major := data.major
              score := data.score
              updated_at := some t }
          else r) }
    (get_by_id i db2, db2)
  else (none, db)

/-- Runs `DELETE FROM students WHERE id = ?`; returns `cursor.rowcount > 0`. -/
def delete (i : Nat) (db : DB) : Bool × DB :=
  (db.students.any (fun r => r.id == i),
   { db with students := db.students.filter (fun r => !(r.id == i)) })

end StudentDB

/-! ### Note repository (`class NoteDB`) -/

namespace NoteDB

/-- Runs `SELECT * FROM notes ORDER BY is_pinned DESC, id DESC`. -/
def get_all (db : DB) : List NoteRow :=
  sortNotes db.notes

/-- Runs `SELECT * FROM notes WHERE id = ?` followed by `fetchone`. -/
def get_by_id (i : Nat) (db : DB) : Option NoteRow :=
  db.notes.find? (fun n => n.id == i)

/-- Runs `INSERT INTO notes (title, content, color, is_pinned) VALUES (...)`
with the Python-side defaults `data.get('title', '新便签')`,
`data.get('content', '')`, `data.get('color', 'yellow')`,
`data.get('is_pinned', 0)`; then `get_by_id(cursor.lastrowid)`. -/
def create (t : Nat) (data : NoteData) (db : DB) : Option NoteRow × DB :=
  let row : NoteRow :=
    { id := db.nextNoteId
      title := data.title.getD "新便签"
      content := some (data.content.getD "")
      color := some (data.color.getD "yellow")
      is_pinned := data.is_pinned.getD 0
      created_at := some t
      updated_at := some t }
  let db2 : DB :=
    { db with notes := db.notes ++ [row], nextNoteId := db.nextNoteId + 1 }
  (get_by_id row.id db2, db2)

/-- Runs `UPDATE notes SET title=?, content=?, color=?, is_pinned=?,
updated_at=CURRENT_TIMESTAMP WHERE id=?` with `data.get('title')`,
`data.get('content')`, `data.get('color')`, `data.get('is_pinned', 0)`.
An absent `title` key binds `NULL` to a `NOT NULL` column: when a row
matches, the statement aborts with an integrity error (`Except.error`)
and the store is left unchanged.  When no row matches, the statement
touches nothing and the constraint is never checked, so the call
returns `None` normally. -/
def update (t : Nat) (i : Nat) (data : NoteData) (db : DB) :
    Except String (Option NoteRow × DB) :=
  if db.notes.any (fun n => n.id == i) then
    match data.title with
    | none => .error "NOT NULL constraint failed: notes.title"
    | some ttl =>
      let db2 : DB :=
        { db with
          notes := db.notes.map (fun n =>
            if n.id == i then
              { n with
                title := ttl
                content := data.content
                color := data.color
                is_pinned := data.is_pinned.getD 0
                updated_at := some t }
            else n) }
      .ok (get_by_id i db2, db2)
  else .ok (none, db)

/-- Runs `DELETE FROM notes WHERE id = ?`; returns `cursor.rowcount > 0`. -/
def delete (i : Nat) (db : DB) : Bool × DB :=
  (db.notes.any (fun n => n.id == i),
   { db with notes := db.notes.filter (fun n => !(n.id == i)) })

/-- The `toggle_pin` operation: read the note; if present, write
`new_pin = 0 if note['is_pinned'] else 1` (Python truthiness: any
nonzero integer is truthy) together with a fresh `updated_at`, and
re-read the row; if absent, return `None`. -/
def toggle_pin (t : Nat) (i : Nat) (db : DB) : Option NoteRow × DB :=
  match get_by_id i db with
  | none => (none, db)
  | some n =>
    let newPin : Int := if n.is_pinned ≠ 0 then 0 else 1
    let db2 : DB :=
      { db with
        notes := db.notes.map (fun r =>
          if r.id == i then { r with is_pinned := newPin, updated_at := some t } else r) }
    (get_by_id i db2, db2)

/-- Runs `SELECT * FROM notes WHERE title LIKE ? OR content LIKE ? ORDER BY
is_pinned DESC, id DESC` with both parameters bound to
`f"%{keyword}%"`. -/
def search (keyword : String) (db : DB) : List NoteRow :=
  let pat : List Char := '%' :: (keyword.toList ++ ['%'])
  sortNotes (db.notes.filter (fun n =>
    likeMatch pat n.title.toList || likeOpt pat n.content))

end NoteDB

/-! ### Schema manager (`init_database` and the seed helpers) -/

/-- The fixed sample students inserted by `insert_sample_students`. -/
def sample_students : List StudentData :=
  [ { student_id := "2024001", name := "张三", gender := "男", age := 20,
      major := "计算机科学", score := 95 }
  , { student_id := "2024002", name := "李四", gender := "女", age := 19,
      major := "软件工程", score := 88 }
  , { student_id := "2024003", name := "王五", gender := "男", age := 21,
      major := "人工智能", score := 92 }
  , { student_id := "2024004", name := "赵六", gender := "女", age := 20,
      major := "数据科学", score := 85 }
  , { student_id := "2024005", name := "钱七", gender := "男", age := 22,
      major := "信息安全", score := 78 }
  , { student_id := "2024006", name := "孙八", gender := "女", age := 19,
      major := "物联网", score := 90 } ]

/-- The fixed sample notes (title, content, color, is_pinned) inserted
by `insert_sample_notes`. -/
def sample_notes : List (String × String × String × Int) :=
  [ ("欢迎使用便签", "这是一个便签示例！", "yellow", 1)
  , ("待办事项", "1. 完成作业\n2. 复习考试", "blue", 0)
  , ("重要提醒", "下周一有班会！", "red", 1)
  , ("学习计划", "本周学习Vue.js和Python", "green", 0) ]

/-- One row of the students seed `executemany` INSERT. -/
def insertSeedStudent (t : Nat) (db : DB) (d : StudentData) : DB :=
  { db with
    students := db.students ++
      [{ id := db.nextStudentId
         student_id := d.student_id
         name := d.name
         gender := d.gender
         age := d.age
         major := d.major
         score := d.score
         created_at := some t
         updated_at := some t }]
    nextStudentId := db.nextStudentId + 1 }

/-- The seed helper `insert_sample_students`: bulk INSERT of the six sample rows. -/
def insert_sample_students (t : Nat) (db : DB) : DB :=
  sample_students.foldl (insertSeedStudent t) db

/-- One row of the notes seed `executemany` INSERT. -/
def insertSeedNote (t : Nat) (db : DB) (d : String × String × String × Int) : DB :=
  { db with
    notes := db.notes ++
      [{ id := db.nextNoteId
         title := d.1
         content := some d.2.1
         color := some d.2.2.1
         is_pinned := d.2.2.2
         created_at := some t
         updated_at := some t }]
    nextNoteId := db.nextNoteId + 1 }

/-- The seed helper `insert_sample_notes`: bulk INSERT of the four sample rows. -/
def insert_sample_notes (t : Nat) (db : DB) : DB :=
  sample_notes.foldl (insertSeedNote t) db

/-- The schema manager `init_database`: `CREATE TABLE IF NOT EXISTS` for both tables (a
no-op on the schema when they already exist), then
`SELECT COUNT(*)` per table and seed insertion only when the count
is zero. -/
def init_database (t : Nat) (db : DB) : DB :=
  let db1 : DB := { db with studentsTableExists := true, notesTableExists := true }
  let db2 : DB := if db1.students.isEmpty then insert_sample_students t db1 else db1
  if db2.notes.isEmpty then insert_sample_notes t db2 else db2

/-! ### Sequences of note-repository operations

Used to state the `is_pinned` invariant over every reachable store. -/

/-- A note-repository call, with the wall-clock time at which it runs. -/
inductive NoteOp where
  | create (t : Nat) (d : NoteData)
  | update (t : Nat) (i : Nat) (d : NoteData)
  | toggle (t : Nat) (i : Nat)
deriving Repr, DecidableEq

/-- Run one operation for its effect on the store.  A failing `UPDATE`
(`NOT NULL` violation) raises before `commit`, so the store is
unchanged. -/
def applyNoteOp (db : DB) : NoteOp → DB
  | .create t d => (NoteDB.create t d db).2
  | .update t i d =>
    match NoteDB.update t i d db with
    | .ok (_, db2) => db2
    | .error _ => db
  | .toggle t i => (NoteDB.toggle_pin t i db).2

/-- Run a sequence of note-repository operations. -/
def runNoteOps (db : DB) (ops : List NoteOp) : DB :=
  ops.foldl applyNoteOp db

/-- Every stored note has `is_pinned` 0 or 1 (the spec's invariant). -/
def pinInv (db : DB) : Prop :=
  ∀ n ∈ db.notes, n.is_pinned = 0 ∨ n.is_pinned = 1

instance (db : DB) : Decidable (pinInv db) := by
  unfold pinInv; infer_instance

/-- The operation supplies `is_pinned` as 0 or 1, or omits it (so the
Python-side `data.get('is_pinned', 0)` default applies). -/
def goodNoteOp : NoteOp → Prop
  | .create _ d => d.is_pinned.getD 0 = 0 ∨ d.is_pinned.getD 0 = 1
  | .update _ _ d => d.is_pinned.getD 0 = 0 ∨ d.is_pinned.getD 0 = 1
  | .toggle _ _ => True

instance (op : NoteOp) : Decidable (goodNoteOp op) := by
  unfold goodNoteOp
  match op with
  | .create _ _ => infer_instance
  | .update _ _ _ => infer_instance
  | .toggle _ _ => infer_instance

/-! ### Substring containment

Executable plain substring containment over character lists, used to
state what the spec's words mean by "contains the keyword as a
substring" and to compare it with the SQLite `LIKE` filter. -/

/-- Here `startsWithL p s` holds when `p` starts `s` (character-exact). -/
def startsWithL : List Char → List Char → Bool
  | [], _ => true
  | _ :: _, [] => false
  | p :: ps, c :: cs => p == c && startsWithL ps cs

/-- Here `containsL p s` holds when `p` occurs inside `s` as a contiguous run. -/
def containsL (p : List Char) : List Char → Bool
  | [] => startsWithL p []
  | c :: cs => startsWithL p (c :: cs) || containsL p cs

/-- Modelled from the spec: "contains the keyword as a substring", the
claim's case-sensitive reading, on a note's `title` or `content`
(a `NULL` content contains nothing). -/
def noteMatchesPlain (kw : String) (n : NoteRow) : Bool :=
  containsL kw.toList n.title.toList ||
    (match n.content with
     | some c => containsL kw.toList c.toList
     | none => false)

/-- ASCII-case-insensitive substring containment: what SQLite `LIKE`
computes for a wildcard-free needle. -/
def ciContains (kw s : String) : Bool :=
  containsL (kw.toList.map Char.toLower) (s.toList.map Char.toLower)

/-- A note matched by `search` semantics for a wildcard-free keyword:
ASCII-case-insensitive substring of `title` or of a non-`NULL`
`content`. -/
def noteMatchesCI (kw : String) (n : NoteRow) : Bool :=
  ciContains kw n.title ||
    (match n.content with
     | some c => ciContains kw c
     | none => false)

/-- The keyword uses no SQLite `LIKE` wildcard. -/
def noWildcard (kw : String) : Prop :=
  ∀ c ∈ kw.toList, c ≠ '%' ∧ c ≠ '_'

instance (kw : String) : Decidable (noWildcard kw) := by
  unfold noWildcard; infer_instance

/-! ### Lemmas about the `LIKE` matcher -/

theorem likeMatch_nil (s : List Char) : likeMatch [] s = s.isEmpty := rfl

theorem likeMatch_pct (ps s : List Char) :
    likeMatch ('%' :: ps) s = anySuffix (likeMatch ps) s := by
  cases s <;> simp [likeMatch]

theorem likeMatch_plain_nil (p : Char) (ps : List Char) (hp : p ≠ '%') :
    likeMatch (p :: ps) [] = false := by
  simp [likeMatch, hp]

theorem likeMatch_plain_cons (p : Char) (ps : List Char) (c : Char) (s : List Char)
    (hp : p ≠ '%') :
    likeMatch (p :: ps) (c :: s) =
      ((p == '_' || Char.toLower p == Char.toLower c) && likeMatch ps s) := by
  simp [likeMatch, hp]

theorem anySuffix_true_iff (f : List Char → Bool) (s : List Char) :
    anySuffix f s = true ↔ ∃ a b, s = a ++ b ∧ f b = true := by
  induction s with
  | nil =>
    simp only [anySuffix]
    constructor
    · intro h
      exact ⟨[], [], rfl, h⟩
    · rintro ⟨a, b, hab, hb⟩
      obtain ⟨rfl, rfl⟩ : a = [] ∧ b = [] := List.append_eq_nil.mp hab.symm
      exact hb
    | cons c s ih =>
    simp only [anySuffix, Bool.or_eq_true, ih]
    constructor
    · rintro (h | ⟨a, b, rfl, hb⟩)
      · exact ⟨[], c :: s, rfl, h⟩
      · exact ⟨c :: a, b, rfl, hb⟩
    · rintro ⟨a, b, hab, hb⟩
      cases a with
      | nil => exact Or.inl (by simpa using hab ▸ hb)
      | cons x a =>
        obtain ⟨rfl, rfl⟩ : x = c ∧ s = a ++ b := by
          constructor <;> simp_all
        exact Or.inr ⟨a, b, rfl, hb⟩

theorem likeMatch_single_pct (s : List Char) : likeMatch ['%'] s = true := by
  rw [likeMatch_pct, anySuffix_true_iff]
  exact ⟨s, [], by simp, rfl⟩

theorem likeMatch_double_pct (s : List Char) : likeMatch ['%', '%'] s = true := by
  rw [likeMatch_pct, anySuffix_true_iff]
  exact ⟨[], s, rfl, likeMatch_single_pct s⟩

/-! ### C4: empty-keyword search -/

/-- C4.  For every store state, `search("")` returns exactly the same
sequence of notes as `list_all`: the bound pattern is `%%`, which
matches every (`NOT NULL`) `title`, so the `WHERE` clause keeps every
row and both queries sort identically. -/
theorem search_empty_eq_list_all (db : DB) :
    NoteDB.search "" db = NoteDB.get_all db := by
  show sortNotes (db.notes.filter (fun n =>
      likeMatch ['%', '%'] n.title.toList || likeOpt ['%', '%'] n.content)) =
    sortNotes db.notes
  rw [List.filter_eq_self.mpr (fun n _ => by simp [likeMatch_double_pct])]

/-! ### C5: listing order -/

/-- What the spec promises of any notes listing: every pinned note
(`is_pinned = 1`) precedes every unpinned one (`is_pinned = 0`), and
within equal pin values ids are non-increasing. -/
def orderedListing (l : List NoteRow) : Prop :=
  l.Pairwise (fun a b =>
    ¬(a.is_pinned = 0 ∧ b.is_pinned = 1) ∧ (a.is_pinned = b.is_pinned → b.id ≤ a.id))

theorem sortNotes_pairwise (l : List NoteRow) : (sortNotes l).Pairwise noteOrd :=
  List.sorted_insertionSort noteOrd l

theorem noteOrd_imp_listing {a b : NoteRow} (h : noteOrd a b) :
    ¬(a.is_pinned = 0 ∧ b.is_pinned = 1) ∧ (a.is_pinned = b.is_pinned → b.id ≤ a.id) := by
  rcases h with h | ⟨h, h2⟩
  · constructor
    · rintro ⟨ha, hb⟩
      rw [ha, hb] at h
      omega
    · intro he
      rw [he] at h
      exact absurd h (lt_irrefl _)
  · refine ⟨?_, fun _ => h2⟩
    rintro ⟨ha, hb⟩
    rw [ha, hb] at h
    omega

/-- C5.  Both listings (`list_all` and `search`, for any keyword and any
store state) place every pinned note before every unpinned one and,
within a pin group, higher ids first — both queries end in
`ORDER BY is_pinned DESC, id DESC`. -/
theorem listings_pinned_first_id_desc (db : DB) (kw : String) :
    orderedListing (NoteDB.get_all db) ∧ orderedListing (NoteDB.search kw db) := by
  constructor
  · exact (sortNotes_pairwise db.notes).imp (fun h => noteOrd_imp_listing h)
  · exact (sortNotes_pairwise _).imp (fun h => noteOrd_imp_listing h)

/-! ### C1: the `is_pinned ∈ {0,1}` invariant -/

theorem pinInv_applyNoteOp {db : DB} {op : NoteOp} (hdb : pinInv db)
    (hop : goodNoteOp op) : pinInv (applyNoteOp db op) := by
  cases op with
  | create t d =>
    intro n hn
    simp only [applyNoteOp, NoteDB.create, List.mem_append, List.mem_singleton] at hn
    rcases hn with hn | rfl
    · exact hdb n hn
    · exact hop
  | update t i d =>
    by_cases hany : db.notes.any (fun n => n.id == i)
    · cases ht : d.title with
      | none => simpa only [applyNoteOp, NoteDB.update, if_pos hany, ht] using hdb
      | some ttl =>
        intro n hn
        simp only [applyNoteOp, NoteDB.update, if_pos hany, ht, List.mem_map] at hn
        obtain ⟨m, hm, rfl⟩ := hn
        by_cases hid : (m.id == i)
        · simp only [if_pos hid]
          exact hop
        · simp only [if_neg hid]
          exact hdb m hm
    · simpa only [applyNoteOp, NoteDB.update, if_neg hany] using hdb
  | toggle t i =>
    cases hg : NoteDB.get_by_id i db with
    | none => simpa only [applyNoteOp, NoteDB.toggle_pin, hg] using hdb
    | some m =>
      intro n hn
      simp only [applyNoteOp, NoteDB.toggle_pin, hg, List.mem_map] at hn
      obtain ⟨r, hr, rfl⟩ := hn
      by_cases hid : (r.id == i)
      · simp only [if_pos hid]
        by_cases hz : m.is_pinned ≠ 0 <;> simp [hz]
      · simp only [if_neg hid]
        exact hdb r hr

theorem pinInv_runNoteOps {db : DB} {ops : List NoteOp} (hdb : pinInv db)
    (hops : ∀ op ∈ ops, goodNoteOp op) : pinInv (runNoteOps db ops) := by
  induction ops generalizing db with
  | nil => exact hdb
  | cons op ops ih =>
    exact ih (pinInv_applyNoteOp hdb (hops op (List.mem_cons_self op ops)))
      (fun o ho => hops o (List.mem_cons_of_mem op ho))

theorem pinInv_init (t : Nat) : pinInv (init_database t emptyDB) := by
  intro n hn
  have hmem : n.is_pinned ∈ (init_database t emptyDB).notes.map (fun m => m.is_pinned) :=
    List.mem_map_of_mem _ hn
  rw [show (init_database t emptyDB).notes.map (fun m => m.is_pinned) = [1, 0, 1, 0] from rfl]
    at hmem
  simp only [List.mem_cons, List.not_mem_nil, or_false] at hmem
  omega

/-- C1 (amended).  Starting from a freshly initialized store, every
sequence of note-repository operations in which each `create`/`update`
supplies `is_pinned` as 0 or 1 (or omits it, so the Python-side default
0 applies) keeps every stored note's `is_pinned` at 0 or 1.  As frozen
the claim is false: `create`/`update` pass the caller's `is_pinned`
through to the store unvalidated (see the counterexample). -/
theorem pin_flag_invariant (t : Nat) (ops : List NoteOp)
    (hops : ∀ op ∈ ops, goodNoteOp op) :
    pinInv (runNoteOps (init_database t emptyDB) ops) :=
  pinInv_runNoteOps (pinInv_init t) hops

theorem pin_flag_invariant_witness :
    (∀ op ∈ [NoteOp.toggle 1 1, NoteOp.create 2 { title := some "x" }], goodNoteOp op) ∧
      pinInv (runNoteOps (init_database 0 emptyDB)
        [NoteOp.toggle 1 1, NoteOp.create 2 { title := some "x" }]) :=
  ⟨by decide, pin_flag_invariant 0 _ (by decide)⟩

/-- C1, as frozen, is false: from a freshly initialized store, a single
`create` with caller field `is_pinned = 2` stores a note whose
`is_pinned` is neither 0 nor 1 (the repository does not validate the
flag). -/
theorem pin_flag_counterexample :
    ((runNoteOps (init_database 0 emptyDB) [NoteOp.create 0 { is_pinned := some 2 }]).notes.any
      (fun n => !(n.is_pinned == 0 || n.is_pinned == 1))) = true := by decide

/-! ### C2: double toggle -/

/-- Running `SELECT ... WHERE id = ?` against a table rewritten row-by-row by an
id-preserving `UPDATE` returns the rewritten image of the row it found
before. -/
theorem find?_map_id_pres (g : NoteRow → NoteRow) (hg : ∀ r, (g r).id = r.id)
    (l : List NoteRow) (i : Nat) :
    (l.map g).find? (fun r => r.id == i) = Option.map g (l.find? (fun r => r.id == i)) := by
  induction l with
  | nil => rfl
  | cons a l ih =>
    simp only [List.map_cons, List.find?, hg a]
    cases h : (a.id == i) <;> simp [h, ih]

/-- The pin value `toggle_pin` writes when it reads the row `n`. -/
theorem toggle_pin_state (t i : Nat) (db : DB) (n : NoteRow)
    (hn : NoteDB.get_by_id i db = some n) :
    NoteDB.get_by_id i (NoteDB.toggle_pin t i db).2 =
      some { n with is_pinned := if n.is_pinned ≠ 0 then 0 else 1, updated_at := some t } := by
  have hfind : db.notes.find? (fun r => r.id == i) = some n := hn
  have hid : (n.id == i) = true := by simpa using List.find?_some hfind
  have hre := find?_map_id_pres
    (fun r => if r.id == i then
        { r with is_pinned := (if n.is_pinned ≠ 0 then 0 else 1 : Int),
                 updated_at := some t }
      else r)
    (fun r => by by_cases h : (r.id == i) = true <;> simp [h]) db.notes i
  unfold NoteDB.toggle_pin
  rw [hn]
  simp only [NoteDB.get_by_id]
  rw [hre, hfind, Option.map_some', if_pos hid]

/-- C2 (amended).  For a note present in the store whose `is_pinned` is
0 or 1, two consecutive `toggle_pin` calls restore the original
`is_pinned` value.  As frozen (over every storable pin value) the claim
is false: the flip is Python truthiness (`0 if pinned else 1`), so any
nonzero pin becomes 0 and then 1 (see the counterexample). -/
theorem toggle_pin_twice (t1 t2 i : Nat) (db : DB) (n : NoteRow)
    (hn : NoteDB.get_by_id i db = some n) (hpin : n.is_pinned = 0 ∨ n.is_pinned = 1) :
    ∃ n2, NoteDB.get_by_id i (NoteDB.toggle_pin t2 i (NoteDB.toggle_pin t1 i db).2).2 = some n2 ∧
      n2.is_pinned = n.is_pinned := by
  have h1 := toggle_pin_state t1 i db n hn
  have h2 := toggle_pin_state t2 i (NoteDB.toggle_pin t1 i db).2 _ h1
  refine ⟨_, h2, ?_⟩
  rcases hpin with hp | hp <;> simp [hp]

theorem toggle_pin_twice_witness :
    NoteDB.get_by_id 1 (init_database 0 emptyDB) =
      some { id := 1, title := "欢迎使用便签", content := some "这是一个便签示例！",
             color := some "yellow", is_pinned := 1, created_at := some 0,
             updated_at := some 0 } ∧
    ∃ n2, NoteDB.get_by_id 1
        (NoteDB.toggle_pin 2 1 (NoteDB.toggle_pin 1 1 (init_database 0 emptyDB)).2).2 =
          some n2 ∧
      n2.is_pinned = (1 : Int) :=
  ⟨by decide, toggle_pin_twice 1 2 1 (init_database 0 emptyDB)
    { id := 1, title := "欢迎使用便签", content := some "这是一个便签示例！",
      color := some "yellow", is_pinned := 1, created_at := some 0, updated_at := some 0 }
    (by decide) (by decide)⟩

/-- C2, as frozen, is false: a note with `is_pinned = 2` (reachable from
a fresh store by one `create`) has `is_pinned = 1`, not 2, after two
consecutive `toggle_pin` calls. -/
theorem toggle_pin_twice_counterexample :
    (NoteDB.get_by_id 5
        (runNoteOps (init_database 0 emptyDB) [NoteOp.create 0 { is_pinned := some 2 }])).map
      (fun n => n.is_pinned) = some 2 ∧
    (NoteDB.get_by_id 5
        (NoteDB.toggle_pin 2 5 (NoteDB.toggle_pin 1 5
          (runNoteOps (init_database 0 emptyDB) [NoteOp.create 0 { is_pinned := some 2 }])).2).2).map
      (fun n => n.is_pinned) = some 1 := by decide

/-! ### C6: idempotent initialization -/

/-- C6.  `init_database` on an empty store marks both tables created and
inserts exactly the fixed seed rows (six students with ids 1–6, four
notes with ids 1–4, payloads as in the source); on a store whose tables
exist and are non-empty it is the identity — no insertion, no dropped or
altered data. -/
theorem init_database_idempotent (t t' : Nat) :
    ((init_database t emptyDB).studentsTableExists = true ∧
     (init_database t emptyDB).notesTableExists = true ∧
     (init_database t emptyDB).students.map
         (fun r => (r.id, r.student_id, r.name, r.gender, r.age, r.major, r.score)) =
       [(1, "2024001", "张三", "男", 20, "计算机科学", 95),
        (2, "2024002", "李四", "女", 19, "软件工程", 88),
        (3, "2024003", "王五", "男", 21, "人工智能", 92),
        (4, "2024004", "赵六", "女", 20, "数据科学", 85),
        (5, "2024005", "钱七", "男", 22, "信息安全", 78),
        (6, "2024006", "孙八", "女", 19, "物联网", 90)] ∧
     (init_database t emptyDB).notes.map
         (fun n => (n.id, n.title, n.content, n.color, n.is_pinned)) =
       [(1, "欢迎使用便签", some "这是一个便签示例！", some "yellow", 1),
        (2, "待办事项", some "1. 完成作业\n2. 复习考试", some "blue", 0),
        (3, "重要提醒", some "下周一有班会！", some "red", 1),
        (4, "学习计划", some "本周学习Vue.js和Python", some "green", 0)]) ∧
    (∀ db : DB, db.studentsTableExists = true → db.notesTableExists = true →
      db.students ≠ [] → db.notes ≠ [] → init_database t' db = db) := by
  refine ⟨⟨rfl, rfl, rfl, rfl⟩, ?_⟩
  intro db h1 h2 h3 h4
  obtain ⟨f1, f2, ss, ns, nn, nnn⟩ := db
  simp only at h1 h2 h3 h4
  subst h1 h2
  unfold init_database
  simp [List.isEmpty_iff, h3, h4]

theorem init_database_idempotent_witness :
    ((init_database 0 emptyDB).studentsTableExists = true ∧
     (init_database 0 emptyDB).notesTableExists = true ∧
     (init_database 0 emptyDB).students ≠ [] ∧
     (init_database 0 emptyDB).notes ≠ []) ∧
    init_database 1 (init_database 0 emptyDB) = init_database 0 emptyDB :=
  ⟨by decide,
   (init_database_idempotent 0 1).2 (init_database 0 emptyDB)
     (by decide) (by decide) (by decide) (by decide)⟩

/-! ### C7: update on a missing id -/

/-- C7.  For an id matching no stored row, `update` (students and notes
alike) returns absent and leaves the store exactly as it was: the
`UPDATE ... WHERE id=?` touches zero rows, `cursor.rowcount` is 0, and
nothing is inserted. -/
theorem update_nonexistent (t i : Nat) (sd : StudentData) (nd : NoteData) (db : DB)
    (hs : ∀ r ∈ db.students, r.id ≠ i) (hn : ∀ n ∈ db.notes, n.id ≠ i) :
    StudentDB.update t i sd db = (none, db) ∧
    NoteDB.update t i nd db = .ok (none, db) := by
  have h1 : db.students.any (fun r => r.id == i) = false := by
    rw [List.any_eq_false]
    intro x hx
    simpa using hs x hx
  have h2 : db.notes.any (fun n => n.id == i) = false := by
    rw [List.any_eq_false]
    intro x hx
    simpa using hn x hx
  constructor
  · unfold StudentDB.update
    rw [if_neg (by simp [h1])]
  · unfold NoteDB.update
    rw [if_neg (by simp [h2])]

theorem update_nonexistent_witness :
    StudentDB.update 1 99
        { student_id := "x", name := "x", gender := "x", age := 20, major := "x", score := 1 }
        (init_database 0 emptyDB) = (none, init_database 0 emptyDB) ∧
    NoteDB.update 1 99 { title := some "x" } (init_database 0 emptyDB) =
      .ok (none, init_database 0 emptyDB) :=
  update_nonexistent 1 99
    { student_id := "x", name := "x", gender := "x", age := 20, major := "x", score := 1 }
    { title := some "x" } (init_database 0 emptyDB) (by decide) (by decide)

/-! ### C8: delete returns true exactly once -/

/-- C8.  `delete` (students and notes alike) returns true exactly when a
row with the id was present, removing it; a second `delete` of the same
id then returns false, and `delete` of an id that never existed returns
false and changes nothing. -/
theorem delete_true_exactly_once (db : DB) (i : Nat) :
    ((∃ r ∈ db.students, r.id = i) →
      (StudentDB.delete i db).1 = true ∧
      (StudentDB.delete i (StudentDB.delete i db).2).1 = false) ∧
    ((∀ r ∈ db.students, r.id ≠ i) →
      (StudentDB.delete i db).1 = false ∧ (StudentDB.delete i db).2 = db) ∧
    ((∃ n ∈ db.notes, n.id = i) →
      (NoteDB.delete i db).1 = true ∧
      (NoteDB.delete i (NoteDB.delete i db).2).1 = false) ∧
    ((∀ n ∈ db.notes, n.id ≠ i) →
      (NoteDB.delete i db).1 = false ∧ (NoteDB.delete i db).2 = db) := by
  refine ⟨?_, ?_, ?_, ?_⟩
  · rintro ⟨r, hr, rfl⟩
    constructor
    · exact List.any_eq_true.mpr ⟨r, hr, by simp⟩
    · simp only [StudentDB.delete]
      rw [List.any_eq_false]
      intro x hx
      rw [List.mem_filter] at hx
      simpa using hx.2
  · intro h
    constructor
    · simp only [StudentDB.delete]
      rw [List.any_eq_false]
      intro x hx
      simpa using h x hx
    · simp only [StudentDB.delete]
      rw [List.filter_eq_self.mpr (fun x hx => by simpa using h x hx)]
  · rintro ⟨n, hn, rfl⟩
    constructor
    · exact List.any_eq_true.mpr ⟨n, hn, by simp⟩
    · simp only [NoteDB.delete]
      rw [List.any_eq_false]
      intro x hx
      rw [List.mem_filter] at hx
      simpa using hx.2
  · intro h
    constructor
    · simp only [NoteDB.delete]
      rw [List.any_eq_false]
      intro x hx
      simpa using h x hx
    · simp only [NoteDB.delete]
      rw [List.filter_eq_self.mpr (fun x hx => by simpa using h x hx)]

theorem delete_true_exactly_once_witness :
    ((StudentDB.delete 1 (init_database 0 emptyDB)).1 = true ∧
     (StudentDB.delete 1 (StudentDB.delete 1 (init_database 0 emptyDB)).2).1 = false) ∧
    ((NoteDB.delete 99 (init_database 0 emptyDB)).1 = false ∧
     (NoteDB.delete 99 (init_database 0 emptyDB)).2 = init_database 0 emptyDB) :=
  ⟨(delete_true_exactly_once (init_database 0 emptyDB) 1).1 (by decide),
   (delete_true_exactly_once (init_database 0 emptyDB) 99).2.2.2 (by decide)⟩

/-! ### C9: create then get -/

/-- Search by `find?` skips over elements on which the predicate is false. -/
theorem find?_append_right {α : Type} {p : α → Bool} (l1 l2 : List α)
    (h : ∀ x ∈ l1, p x = false) :
    (l1 ++ l2).find? p = l2.find? p := by
  induction l1 with
  | nil => rfl
  | cons a l ih =>
    rw [List.cons_append, List.find?_cons_of_neg _ (by simp [h a (List.mem_cons_self a l)]),
      ih (fun x hx => h x (List.mem_cons_of_mem a hx))]

/-- C9.  `create` followed by `get` of the returned row's id yields that
very row: the caller-supplied fields are stored verbatim and both
system-assigned timestamps are non-null.  The hypothesis is SQLite's
AUTOINCREMENT invariant (every stored id is below the next id). -/
theorem create_then_get (t : Nat) (d : StudentData) (db : DB)
    (hfresh : ∀ r ∈ db.students, r.id < db.nextStudentId) :
    ∃ row : StudentRow,
      (StudentDB.create t d db).1 = some row ∧
      StudentDB.get_by_id row.id (StudentDB.create t d db).2 = some row ∧
      row.student_id = d.student_id ∧ row.name = d.name ∧ row.gender = d.gender ∧
      row.age = d.age ∧ row.major = d.major ∧ row.score = d.score ∧
      row.created_at ≠ none ∧ row.updated_at ≠ none := by
  have key : (db.students ++
        [({ id := db.nextStudentId, student_id := d.student_id, name := d.name,
            gender := d.gender, age := d.age, major := d.major, score := d.score,
            created_at := some t, updated_at := some t } : StudentRow)]).find?
      (fun r => r.id == db.nextStudentId) =
      some { id := db.nextStudentId, student_id := d.student_id, name := d.name,
             gender := d.gender, age := d.age, major := d.major, score := d.score,
             created_at := some t, updated_at := some t } := by
    rw [find?_append_right _ _ (fun x hx => by
      have := hfresh x hx
      simp only [beq_eq_false_iff_ne, ne_eq]
      omega)]
    simp [List.find?]
  refine ⟨{ id := db.nextStudentId, student_id := d.student_id, name := d.name,
            gender := d.gender, age := d.age, major := d.major, score := d.score,
            created_at := some t, updated_at := some t },
    ?_, ?_, rfl, rfl, rfl, rfl, rfl, rfl, by simp, by simp⟩
  · simpa only [StudentDB.create, StudentDB.get_by_id] using key
  · simpa only [StudentDB.create, StudentDB.get_by_id] using key

theorem create_then_get_witness :
    ∃ row : StudentRow,
      (StudentDB.create 5
        { student_id := "2024099", name := "测试", gender := "男", age := 20,
          major := "测试专业", score := 100 } (init_database 0 emptyDB)).1 = some row ∧
      StudentDB.get_by_id row.id
        (StudentDB.create 5
          { student_id := "2024099", name := "测试", gender := "男", age := 20,
            major := "测试专业", score := 100 } (init_database 0 emptyDB)).2 = some row ∧
      row.student_id = "2024099" ∧ row.name = "测试" ∧ row.gender = "男" ∧
      row.age = 20 ∧ row.major = "测试专业" ∧ row.score = 100 ∧
      row.created_at ≠ none ∧ row.updated_at ≠ none :=
  create_then_get 5
    { student_id := "2024099", name := "测试", gender := "男", age := 20,
      major := "测试专业", score := 100 } (init_database 0 emptyDB) (by decide)

/-! ### C10: what NoteDB.update writes -/

/-- C10.  On an existing id, `NoteDB.update` overwrites every column
from the `data` dict: an omitted `is_pinned` writes 0 (the `data.get`
default) instead of preserving the row's pin state; omitted `content`
or `color` bind `NULL` and the columns become `NULL`; an omitted `title`
binds `NULL` to the `NOT NULL` column, so the statement fails with the
integrity error and nothing is written. -/
theorem note_update_overwrites (t i : Nat) (d : NoteData) (db : DB)
    (hex : ∃ n ∈ db.notes, n.id = i) :
    (d.title = none →
      NoteDB.update t i d db = .error "NOT NULL constraint failed: notes.title") ∧
    (∀ s, d.title = some s →
      ∃ db2, NoteDB.update t i d db = .ok (NoteDB.get_by_id i db2, db2) ∧
        ∀ n ∈ db2.notes, n.id = i →
          n.title = s ∧ n.content = d.content ∧ n.color = d.color ∧
          n.is_pinned = d.is_pinned.getD 0 ∧ n.updated_at = some t) := by
  have hany : db.notes.any (fun n => n.id == i) = true := by
    obtain ⟨n, hn, rfl⟩ := hex
    exact List.any_eq_true.mpr ⟨n, hn, by simp⟩
  constructor
  · intro ht
    unfold NoteDB.update
    rw [if_pos (by simp [hany]), ht]
  · intro s hs
    refine ⟨{ db with notes := db.notes.map (fun n =>
        if n.id == i then
          { n with title := s, content := d.content, color := d.color,
                   is_pinned := d.is_pinned.getD 0, updated_at := some t }
        else n) }, ?_, ?_⟩
    · simp only [NoteDB.update, hany, hs, if_true]
    · intro n hn hni
      simp only [List.mem_map] at hn
      obtain ⟨m, hm, rfl⟩ := hn
      by_cases hid : (m.id == i) = true
      · have hid2 : m.id = i := by simpa using hid
        simp [hid2]
      · rw [if_neg hid] at hni ⊢
        exact absurd (by simpa using hni) (by simpa using hid)

theorem note_update_overwrites_witness :
    NoteDB.update 9 2 { } (init_database 0 emptyDB) =
      .error "NOT NULL constraint failed: notes.title" :=
  (note_update_overwrites 9 2 { } (init_database 0 emptyDB) (by decide)).1 rfl

/-! ### C3: search as substring containment

The SQL filter is `LIKE '%kw%'`.  For a keyword free of `%`/`_` this is
exactly ASCII-case-insensitive substring containment; the lemmas below
establish that equivalence, and the counterexample shows the frozen
claim's plain (case-sensitive) reading is false. -/

theorem bool_eq_of_iff {a b : Bool} (h : a = true ↔ b = true) : a = b := by
  cases a <;> cases b <;> simp_all

theorem startsWithL_iff (p : List Char) :
    ∀ s, startsWithL p s = true ↔ ∃ r, s = p ++ r := by
  induction p with
  | nil =>
    intro s
    simp only [startsWithL, List.nil_append]
    exact ⟨fun _ => ⟨s, rfl⟩, fun _ => trivial⟩
  | cons a p ih =>
    intro s
    cases s with
    | nil =>
      simp only [startsWithL, List.cons_append]
      constructor
      · intro h
        cases h
      · rintro ⟨r, hr⟩
        cases hr
    | cons c s2 =>
      simp only [startsWithL, Bool.and_eq_true, beq_iff_eq, ih, List.cons_append]
      constructor
      · rintro ⟨rfl, r, rfl⟩
        exact ⟨r, rfl⟩
      · rintro ⟨r, hr⟩
        injection hr with h1 h2
        exact ⟨h1.symm, r, h2⟩

theorem containsL_iff (p : List Char) :
    ∀ s, containsL p s = true ↔ ∃ a b, s = a ++ p ++ b := by
  intro s
  induction s with
  | nil =>
    simp only [containsL]
    rw [startsWithL_iff]
    constructor
    · rintro ⟨r, hr⟩
      exact ⟨[], r, by simpa using hr⟩
    · rintro ⟨a, b, hab⟩
      obtain ⟨h1, hb⟩ := List.append_eq_nil.mp hab.symm
      obtain ⟨ha, hp⟩ := List.append_eq_nil.mp h1
      exact ⟨b, by simp [hp, hb]⟩
  | cons c s2 ih =>
    simp only [containsL, Bool.or_eq_true, ih]
    rw [startsWithL_iff]
    constructor
    · rintro (⟨r, hr⟩ | ⟨a, b, hab⟩)
      · exact ⟨[], r, by simpa using hr⟩
      · exact ⟨c :: a, b, by simp [hab]⟩
    · rintro ⟨a, b, hab⟩
      cases a with
      | nil => exact Or.inl ⟨b, by simpa using hab⟩
      | cons x a2 =>
        simp only [List.cons_append, List.append_assoc] at hab
        injection hab with h1 h2
        exact Or.inr ⟨a2, b, by simp [h2]⟩

/-- Splitting a mapped list along an append of its image. -/
theorem map_eq_append_split {α β : Type} {f : α → β} :
    ∀ {l : List α} {x y : List β}, l.map f = x ++ y →
      ∃ a b, l = a ++ b ∧ a.map f = x ∧ b.map f = y := by
  intro l x
  induction x generalizing l with
  | nil =>
    intro y h
    exact ⟨[], l, rfl, rfl, by simpa using h⟩
  | cons hx x ih =>
    intro y h
    cases l with
    | nil => simp at h
    | cons c l2 =>
      rw [List.map_cons, List.cons_append] at h
      injection h with h1 h2
      obtain ⟨a, b, rfl, ha, hb⟩ := ih h2
      exact ⟨c :: a, b, rfl, by simp [ha, h1], hb⟩

/-- A wildcard-free pattern followed by `%` matches exactly the strings
with a case-insensitively equal prefix. -/
theorem likeMatch_plain_append_pct (kw : List Char)
    (hkw : ∀ c ∈ kw, c ≠ '%' ∧ c ≠ '_') :
    ∀ s, likeMatch (kw ++ ['%']) s = true ↔
      ∃ a b, s = a ++ b ∧ a.map Char.toLower = kw.map Char.toLower := by
  induction kw with
  | nil =>
    intro s
    simp only [List.nil_append, List.map_nil]
    rw [likeMatch_single_pct]
    constructor
    · intro _
      exact ⟨[], s, rfl, rfl⟩
    · intro _
      rfl
  | cons p kw ih =>
    intro s
    obtain ⟨hp1, hp2⟩ := hkw p (List.mem_cons_self p kw)
    have ih2 := ih (fun c hc => hkw c (List.mem_cons_of_mem p hc))
    cases s with
    | nil =>
      rw [List.cons_append, likeMatch_plain_nil p _ hp1]
      simp only [Bool.false_eq_true, false_iff]
      rintro ⟨a, b, hab, hmap⟩
      obtain ⟨rfl, rfl⟩ := List.append_eq_nil.mp hab.symm
      simp at hmap
    | cons c s2 =>
      rw [List.cons_append, likeMatch_plain_cons p _ c s2 hp1]
      have hbeq : (p == '_') = false := by simpa using hp2
      rw [hbeq, Bool.false_or, Bool.and_eq_true, beq_iff_eq, ih2]
      constructor
      · rintro ⟨hpc, a, b, rfl, hmap⟩
        exact ⟨c :: a, b, rfl, by simp [hmap, hpc]⟩
      · rintro ⟨a, b, hab, hmap⟩
        cases a with
        | nil => simp at hmap
        | cons x a2 =>
          rw [List.cons_append] at hab
          injection hab with hxc hs
          subst hxc
          rw [List.map_cons, List.map_cons] at hmap
          injection hmap with hm1 hm2
          exact ⟨hm1.symm, a2, b, hs, hm2⟩

/-- The SQL pattern `%kw%`, for a wildcard-free keyword, computes
ASCII-case-insensitive substring containment. -/
theorem likeMatch_pat_eq_containsCI (kw : List Char)
    (hkw : ∀ c ∈ kw, c ≠ '%' ∧ c ≠ '_') (s : List Char) :
    likeMatch ('%' :: (kw ++ ['%'])) s =
      containsL (kw.map Char.toLower) (s.map Char.toLower) := by
  apply bool_eq_of_iff
  rw [likeMatch_pct, anySuffix_true_iff, containsL_iff]
  constructor
  · rintro ⟨a, b, rfl, hb⟩
    rw [likeMatch_plain_append_pct kw hkw] at hb
    obtain ⟨u, v, rfl, hu⟩ := hb
    exact ⟨a.map Char.toLower, v.map Char.toLower, by simp [hu]⟩
  · rintro ⟨x, y, hxy⟩
    obtain ⟨l1, l2, rfl, h1, h2⟩ := map_eq_append_split hxy
    obtain ⟨a, u, rfl, ha, hu⟩ := map_eq_append_split h1
    refine ⟨a, u ++ l2, by simp, ?_⟩
    rw [likeMatch_plain_append_pct kw hkw]
    exact ⟨u, l2, rfl, hu⟩

/-- C3 (amended).  For every keyword free of the `LIKE` wildcards `%`
and `_`, `search(keyword)` returns exactly those notes whose `title` or
(non-`NULL`) `content` contains the keyword as an
ASCII-case-insensitive substring, in pinned-first/`id`-descending
order, and returns the empty sequence when no note so contains it.  As
frozen (plain case-sensitive substring containment) the claim is false:
SQLite `LIKE` folds ASCII case (see the counterexample). -/
theorem search_ci_substring (kw : String) (db : DB) (hkw : noWildcard kw) :
    NoteDB.search kw db = sortNotes (db.notes.filter (noteMatchesCI kw)) ∧
    ((∀ n ∈ db.notes, noteMatchesCI kw n = false) → NoteDB.search kw db = []) := by
  have hpat : ∀ s : String,
      likeMatch ('%' :: (kw.toList ++ ['%'])) s.toList = ciContains kw s := fun s =>
    likeMatch_pat_eq_containsCI kw.toList (fun c hc => hkw c hc) s.toList
  have hfil : ∀ n : NoteRow,
      (likeMatch ('%' :: (kw.toList ++ ['%'])) n.title.toList ||
        likeOpt ('%' :: (kw.toList ++ ['%'])) n.content) = noteMatchesCI kw n := by
    intro n
    unfold noteMatchesCI likeOpt
    cases n.content with
    | none =>
      show (likeMatch ('%' :: (kw.toList ++ ['%'])) n.title.toList || false) =
        (ciContains kw n.title || false)
      rw [hpat n.title]
    | some c =>
      show (likeMatch ('%' :: (kw.toList ++ ['%'])) n.title.toList ||
          likeMatch ('%' :: (kw.toList ++ ['%'])) c.toList) =
        (ciContains kw n.title || ciContains kw c)
      rw [hpat n.title, hpat c]
  constructor
  · show sortNotes (db.notes.filter (fun n =>
        likeMatch ('%' :: (kw.toList ++ ['%'])) n.title.toList ||
        likeOpt ('%' :: (kw.toList ++ ['%'])) n.content)) = _
    rw [List.filter_congr (fun n _ => hfil n)]
  · intro hnone
    show sortNotes (db.notes.filter (fun n =>
        likeMatch ('%' :: (kw.toList ++ ['%'])) n.title.toList ||
        likeOpt ('%' :: (kw.toList ++ ['%'])) n.content)) = _
    rw [List.filter_congr (fun n _ => hfil n),
      List.filter_eq_nil_iff.mpr (fun n hn => by simp [hnone n hn])]
    rfl

theorem search_ci_substring_witness :
    noWildcard "Python" ∧
    NoteDB.search "Python" (init_database 0 emptyDB) =
      sortNotes ((init_database 0 emptyDB).notes.filter (noteMatchesCI "Python")) :=
  ⟨by decide, (search_ci_substring "Python" (init_database 0 emptyDB) (by decide)).1⟩

/-- C3, as frozen, is false: on the freshly seeded store no note's
`title` or `content` contains `"PYTHON"` as a plain substring (so the
claim demands an empty result), yet `search("PYTHON")` returns a note —
SQLite `LIKE` matches the seed content `"本周学习Vue.js和Python"`
case-insensitively. -/
theorem search_substring_counterexample :
    ((init_database 0 emptyDB).notes.all (fun n => !(noteMatchesPlain "PYTHON" n))) = true ∧
    NoteDB.search "PYTHON" (init_database 0 emptyDB) ≠ [] := by decide

end StudentsApp
